import Mathlib

/-!
Shallow embedding of the smart-bookmark-app bookmark service
(src/lib/bookmark-service.ts), its HTTP validation helpers
(validation utilities: isValidUrl, validatePagination), and the
client listing controller (src/hooks/useBookmarks.ts, Pagination
component), together with theorems settling the frozen claims.

Modelling conventions:
- a table row (interface Bookmark in src/types/index.ts, table
  bookmarks in database-schema.sql) is a `Bookmark` structure;
  ids and user ids are `Nat`, timestamps are `Int`, strings are
  `List Char`;
- the bookmarks table is a `List Bookmark`;
- the PostgREST query built by `getBookmarks` is reified as a
  `BookmarksQuery` (equality filter on user_id, optional
  `or(title.ilike.%term%,url.ilike.%term%)` filter, inclusive
  range) and executed over the table by `getBookmarks`;
- SQL ILIKE pattern matching (with `%`, `_` and the `\` escape,
  all case-insensitive) is embedded by `parsePattern`/`patMatch`;
- fallible operations return `Except Unit _` / `Option _`.
-/

namespace SmartBookmark

/-- A row of the bookmarks table (src/types/index.ts `Bookmark`,
database-schema.sql). -/
structure Bookmark where
  id : Nat
  user_id : Nat
  url : List Char
  title : List Char
  created_at : Int
  updated_at : Int
deriving DecidableEq, Repr

/-- Pagination parameters of `getBookmarks`
(src/types/index.ts `PaginationParams`), with the defaults applied
by the destructuring of the function signature. -/
structure PaginationParams where
  page : Int := 1
  limit : Int := 10
  search : List Char := []
deriving DecidableEq, Repr

/-- The response shape of `getBookmarks`
(src/types/index.ts `PaginatedResponse`). -/
structure PaginatedResponse where
  data : List Bookmark
  total : Nat
  page : Int
  limit : Int
  totalPages : Nat
deriving DecidableEq, Repr

/-! ### ILIKE pattern matching

`query.or(`title.ilike.%${search}%,url.ilike.%${search}%`)`
interpolates the search term verbatim into a SQL ILIKE pattern.
ILIKE patterns treat `%` as "any sequence", `_` as "any single
character", `\` as an escape, and compare characters
case-insensitively. -/

/-- One token of a SQL LIKE/ILIKE pattern. -/
inductive PatTok where
  | percent
  | underscore
  | lit (c : Char)
deriving DecidableEq, Repr

/-- Parse a SQL ILIKE pattern string into tokens: `%` and `_` are
wildcards unless escaped by `\`. -/
def parsePattern : List Char → List PatTok
  | [] => []
  | c :: rest =>
    if c = '\\' then
      match rest with
      | [] => []
      | d :: rest' => .lit d :: parsePattern rest'
    else if c = '%' then .percent :: parsePattern rest
    else if c = '_' then .underscore :: parsePattern rest
    else .lit c :: parsePattern rest

/-- Case-insensitive ILIKE pattern matching against a string:
`%` matches any sequence (some suffix of the string matches the
rest of the pattern), `_` matches exactly one character, a literal
matches one character up to case. -/
def patMatch : List PatTok → List Char → Bool
  | [], s => s.isEmpty
  | .percent :: ps, s => s.tails.any fun t => patMatch ps t
  | .underscore :: ps, s =>
    match s with
    | [] => false
    | _ :: s' => patMatch ps s'
  | .lit c :: ps, s =>
    match s with
    | [] => false
    | d :: s' => (c.toLower == d.toLower) && patMatch ps s'

/-- PostgREST converts every `*` in the value of a like/ilike filter
to `%` before building the SQL pattern, so `*` is a further wildcard
alias at the query-string layer. -/
def starToPercent (c : Char) : Char :=
  if c = '*' then '%' else c

/-- Embedding of `col.ilike.%term%` with the term interpolated verbatim, as
the service builds it: PostgREST first maps `*` to `%` in the value, and
the resulting `%term%` string is matched under SQL ILIKE semantics. -/
def ilikeContains (term s : List Char) : Bool :=
  patMatch (parsePattern ('%' :: term.map starToPercent ++ ['%'])) s

/-! ### The query built and executed by getBookmarks -/

/-- The PostgREST query that `BookmarkService.getBookmarks` builds:
`.eq(user_id, userId)`, optionally
`.or(title.ilike.%search%,url.ilike.%search%)` (only when `search`
is truthy, i.e. non-empty), and
`.range(offset, offset + limit - 1)` with
`offset = (page - 1) * limit`.  No validation or clamping is
applied to `page`/`limit` anywhere on this path. -/
structure BookmarksQuery where
  filterUser : Nat
  searchFilter : Option (List Char)
  rangeStart : Int
  rangeEnd : Int
deriving DecidableEq, Repr

/-- Query construction in `getBookmarks`
(src/lib/bookmark-service.ts lines 25-41). -/
def buildBookmarksQuery (userId : Nat) (params : PaginationParams) :
    BookmarksQuery :=
  let offset := (params.page - 1) * params.limit
  { filterUser := userId
    searchFilter := if params.search.isEmpty then none else some params.search
    rangeStart := offset
    rangeEnd := offset + params.limit - 1 }

/-- Whether a row satisfies the filters of the query.  PostgREST combines
the top-level `.eq` and `.or` filters with AND; inside the `.or`
string the two ILIKE conditions are disjoined.  This structural reading
of the interpolated `.or` string is faithful only for terms free of the
PostgREST logic-tree delimiter characters (a comma splits the disjunct
list and parentheses open or close groups, so a term containing them
malforms the filter string and the real call errors); theorems about
the search behaviour therefore hypothesize their absence. -/
def rowMatches (q : BookmarksQuery) (b : Bookmark) : Bool :=
  b.user_id == q.filterUser &&
    match q.searchFilter with
    | none => true
    | some term => ilikeContains term b.title || ilikeContains term b.url

/-- Insert a row into a list sorted by `created_at` descending. -/
def insertDesc (b : Bookmark) : List Bookmark → List Bookmark
  | [] => [b]
  | c :: rest =>
    if b.created_at ≤ c.created_at then c :: insertDesc b rest
    else b :: c :: rest

/-- the created_at ordering stage: sort rows by
`created_at` descending. -/
def sortByCreatedDesc : List Bookmark → List Bookmark
  | [] => []
  | b :: rest => insertDesc b (sortByCreatedDesc rest)

/-- Embedding of `BookmarkService.getBookmarks` (src/lib/bookmark-service.ts
lines 21-56) executed over a table: filter by owner (and search),
order by `created_at` descending, count all matching rows
(the exact count is taken before the range), apply the inclusive
range, and assemble the response with
`totalPages = Math.ceil(count / limit)`.  The range endpoints are
converted with `toNat`; for `page ≥ 1`, `limit ≥ 1` this is exact. -/
def getBookmarks (store : List Bookmark) (userId : Nat)
    (params : PaginationParams) : PaginatedResponse :=
  let q := buildBookmarksQuery userId params
  let matching := (sortByCreatedDesc store).filter (rowMatches q)
  let offset := q.rangeStart.toNat
  let lim := params.limit.toNat
  { data := (matching.drop offset).take lim
    total := matching.length
    page := params.page
    limit := params.limit
    totalPages := (matching.length + lim - 1) / lim }

/-! ### Validation helpers (validation utilities file) -/

/-- Embedding of `validatePagination` from the validation utilities: requires
positive integers with `limit <= 100`.  (In the `Int` embedding
`Number.isInteger` is always true.)  This helper is defined in the
repository but is never invoked on the GET /api/bookmarks path. -/
def validatePagination (page limit : Int) : Bool :=
  page > 0 && limit > 0 && limit ≤ 100

/-! ### Create -/

/-- Request body of POST /bookmarks
(src/types/index.ts `BookmarkInput`). -/
structure BookmarkInput where
  url : List Char
  title : List Char
deriving DecidableEq, Repr

/-- Embedding of `BookmarkService.createBookmark` (src/lib/bookmark-service.ts
lines 63-85): throws when `url` or `title` is falsy (empty string),
otherwise inserts a row with `user_id = userId` and store-generated
`id`/timestamps (database-schema.sql defaults: fresh uuid,
`created_at = updated_at = NOW()`) and returns the persisted row.
The generated id and clock reading are passed explicitly. -/
def createBookmark (store : List Bookmark) (userId : Nat)
    (input : BookmarkInput) (newId : Nat) (now : Int) :
    Except Unit (Bookmark × List Bookmark) :=
  if input.url.isEmpty || input.title.isEmpty then
    .error ()
  else
    let b : Bookmark :=
      { id := newId, user_id := userId, url := input.url,
        title := input.title, created_at := now, updated_at := now }
    .ok (b, store ++ [b])

/-! ### Update -/

/-- The JSON body forwarded by PATCH /api/bookmarks/[id].  The route
passes the parsed body to `updateBookmark` unvalidated, and
`updateBookmark` spreads it into the UPDATE (`{ ...input,
updated_at: ... }`), so any column-named key present in the body
becomes part of the UPDATE, not only `url`/`title`: the
`Partial<BookmarkInput>` annotation is erased at runtime. -/
structure UpdateBody where
  url : Option (List Char) := none
  title : Option (List Char) := none
  id : Option Nat := none
  user_id : Option Nat := none
  created_at : Option Int := none
deriving DecidableEq, Repr

/-- The row produced by applying
`update({ ...input, updated_at: now })` to one matched row: every
field present in the body overwrites the column, and `updated_at`
is set to `now` unconditionally. -/
def applyUpdateFields (body : UpdateBody) (now : Int) (b : Bookmark) :
    Bookmark :=
  { id := body.id.getD b.id
    user_id := body.user_id.getD b.user_id
    url := body.url.getD b.url
    title := body.title.getD b.title
    created_at := body.created_at.getD b.created_at
    updated_at := now }

/-- Whether a row is matched by the UPDATE
`.eq(id, bookmarkId).eq(user_id, userId)` filters. -/
def updateTargets (bookmarkId userId : Nat) (b : Bookmark) : Bool :=
  b.id == bookmarkId && b.user_id == userId

/-- Embedding of `BookmarkService.updateBookmark` (src/lib/bookmark-service.ts
lines 109-130): UPDATE the rows matching both `.eq` filters,
then `.select().single()` — an error unless exactly one row was
affected.  Returns the service result together with the table after
the call. -/
def updateBookmark (store : List Bookmark) (bookmarkId userId : Nat)
    (body : UpdateBody) (now : Int) :
    Except Unit Bookmark × List Bookmark :=
  let store' := store.map fun b =>
    if updateTargets bookmarkId userId b then applyUpdateFields body now b
    else b
  match (store.filter (updateTargets bookmarkId userId)).map
      (applyUpdateFields body now) with
  | [b] => (.ok b, store')
  | _ => (.error (), store')

/-! ### Delete -/

/-- Embedding of `BookmarkService.deleteBookmark` (src/lib/bookmark-service.ts
lines 92-102) together with the response of the DELETE route: remove the
rows matching `.eq(id, ...).eq(user_id, ...)`; the service only
throws on a store error, so (absent store failure) the route answers
`{ success: true }` whether or not any row was affected. -/
def deleteBookmark (store : List Bookmark) (bookmarkId userId : Nat) :
    List Bookmark × Bool :=
  (store.filter (fun b => !(b.id == bookmarkId && b.user_id == userId)),
    true)

/-! ### GetOne -/

/-- Embedding of `BookmarkService.getBookmark` (src/lib/bookmark-service.ts
lines 136-149): SELECT rows matching both `.eq` filters, `.single()`
(error unless exactly one row, or when the store itself fails —
`storeFails` models an underlying query failure), and return `null`
on any error. -/
def getBookmark (store : List Bookmark) (bookmarkId userId : Nat)
    (storeFails : Bool) : Option Bookmark :=
  let result : Except Unit Bookmark :=
    if storeFails then .error ()
    else
      match store.filter
          (fun b => b.id == bookmarkId && b.user_id == userId) with
      | [b] => .ok b
      | _ => .error ()
  match result with
  | .error _ => none
  | .ok b => some b

/-! ### Listing controller (src/hooks/useBookmarks.ts, Pagination) -/

/-- The pagination-relevant state of the `useBookmarks` hook:
`page` (initially 1) and `totalPages` as last reported by the
server. -/
structure HookState where
  page : Int
  totalPages : Int
deriving DecidableEq, Repr

/-- Embedding of `handlePageChange` (src/hooks/useBookmarks.ts lines 106-108):
`setPage(newPage)` — the requested page is stored as-is. -/
def handlePageChange (newPage : Int) (s : HookState) : HookState :=
  { s with page := newPage }

/-- The Pagination component renders nothing when
`totalPages <= 1`. -/
def paginationRendered (totalPages : Int) : Bool :=
  totalPages > 1

/-- The Previous button is `disabled={currentPage === 1}`; an
enabled click calls `onPageChange(currentPage - 1)`. -/
def paginationPrevEnabled (currentPage : Int) : Bool :=
  currentPage != 1

/-- The Next button is `disabled={currentPage === totalPages}`; an
enabled click calls `onPageChange(currentPage + 1)`. -/
def paginationNextEnabled (currentPage totalPages : Int) : Bool :=
  currentPage != totalPages

/-! ### Spec-side comparison predicates

These two definitions follow the words of the specification, for
refinement comparisons against the code-derived definitions above:
"contains the term as a case-insensitive substring" (§4.1 List) and
"begin with an `http://` or `https://` scheme" (§3). -/

/-- Case-insensitive prefix test (spec-side helper). -/
def startsWithCI : List Char → List Char → Bool
  | [], _ => true
  | _ :: _, [] => false
  | c :: cs, d :: ds => (c.toLower == d.toLower) && startsWithCI cs ds

/-- Spec-side predicate: `needle` occurs in `hay` as a
case-insensitive substring. -/
def specContainsCI (needle : List Char) : List Char → Bool
  | [] => startsWithCI needle []
  | d :: hay => startsWithCI needle (d :: hay) || specContainsCI needle hay

/-- Exact (case-sensitive) prefix test (spec-side helper). -/
def startsWithExact : List Char → List Char → Bool
  | [], _ => true
  | _ :: _, [] => false
  | c :: cs, d :: ds => (c == d) && startsWithExact cs ds

/-- Spec-side predicate: the url begins with an `http://` or
`https://` scheme. -/
def specHasHttpScheme (url : List Char) : Bool :=
  startsWithExact ('h' :: 't' :: 't' :: 'p' :: ':' :: '/' :: '/' :: []) url
    || startsWithExact
      ('h' :: 't' :: 't' :: 'p' :: 's' :: ':' :: '/' :: '/' :: []) url

/-! ## Sample rows used by witnesses and counterexamples -/

/-- Sample row: owner 7, title "Alpha". -/
def bkA : Bookmark :=
  { id := 1, user_id := 7, url := ('h' :: 't' :: 't' :: 'p' :: ':' :: '/' :: '/' :: 'a' :: '.' :: 'c' :: 'o' :: 'm' :: []),
    title := ('A' :: 'l' :: 'p' :: 'h' :: 'a' :: []), created_at := 5, updated_at := 5 }

/-- Sample row: owner 7, title "Beta", newer than `bkA`. -/
def bkB : Bookmark :=
  { id := 2, user_id := 7, url := ('h' :: 't' :: 't' :: 'p' :: ':' :: '/' :: '/' :: 'b' :: '.' :: 'c' :: 'o' :: 'm' :: []),
    title := ('B' :: 'e' :: 't' :: 'a' :: []), created_at := 9, updated_at := 9 }

/-- Sample row: owner 8 (a different user). -/
def bkC : Bookmark :=
  { id := 3, user_id := 8, url := ('h' :: 't' :: 't' :: 'p' :: ':' :: '/' :: '/' :: 'c' :: '.' :: 'c' :: 'o' :: 'm' :: []),
    title := ('G' :: 'a' :: 'm' :: 'm' :: 'a' :: []), created_at := 1, updated_at := 1 }

/-! ## Helper lemmas -/

theorem mem_insertDesc {b x : Bookmark} {l : List Bookmark} :
    x ∈ insertDesc b l ↔ x = b ∨ x ∈ l := by
  induction l with
  | nil => simp [insertDesc]
  | cons c rest ih =>
    simp only [insertDesc]
    split
    · simp only [List.mem_cons, ih]
      tauto
    · simp only [List.mem_cons]

theorem mem_sortByCreatedDesc {x : Bookmark} {l : List Bookmark} :
    x ∈ sortByCreatedDesc l ↔ x ∈ l := by
  induction l with
  | nil => simp [sortByCreatedDesc]
  | cons b rest ih =>
    simp [sortByCreatedDesc, mem_insertDesc, ih]

theorem patMatch_percent_nil : ∀ s : List Char, patMatch [.percent] s = true := by
  intro s
  induction s with
  | nil => rfl
  | cons c s ih =>
    simp only [patMatch, List.tails, List.any_cons] at ih ⊢
    rw [ih]
    simp

theorem patMatch_lits_percent (t : List Char) : ∀ s : List Char,
    patMatch (t.map PatTok.lit ++ [PatTok.percent]) s = startsWithCI t s := by
  induction t with
  | nil =>
    intro s
    simpa [startsWithCI] using patMatch_percent_nil s
  | cons c t ih =>
    intro s
    cases s with
    | nil => simp [patMatch, startsWithCI]
    | cons d s => simp [patMatch, startsWithCI, ih]

theorem patMatch_percent_lits (t : List Char) : ∀ s : List Char,
    patMatch (PatTok.percent :: (t.map PatTok.lit ++ [PatTok.percent])) s
      = specContainsCI t s := by
  intro s
  induction s with
  | nil =>
    simp [patMatch, patMatch_lits_percent, specContainsCI]
  | cons d s ih =>
    simp only [patMatch, List.tails, List.any_cons] at ih ⊢
    rw [patMatch_lits_percent, ih, specContainsCI]

theorem parsePattern_cons (c : Char) (rest : List Char) :
    parsePattern (c :: rest) =
      if c = '\\' then
        match rest with
        | [] => []
        | d :: rest' => PatTok.lit d :: parsePattern rest'
      else if c = '%' then PatTok.percent :: parsePattern rest
      else if c = '_' then PatTok.underscore :: parsePattern rest
      else PatTok.lit c :: parsePattern rest := by
  rw [parsePattern.eq_def]

theorem parsePattern_clean_append (t : List Char)
    (h : ∀ c ∈ t, c ≠ '%' ∧ c ≠ '_' ∧ c ≠ '\\') (rest : List Char) :
    parsePattern (t ++ rest) = t.map PatTok.lit ++ parsePattern rest := by
  induction t with
  | nil => simp
  | cons c t ih =>
    have hc := h c (List.mem_cons_self c t)
    rw [List.cons_append, parsePattern_cons, if_neg hc.2.2, if_neg hc.1,
      if_neg hc.2.1, List.map_cons, List.cons_append,
      ih fun d hd => h d (List.mem_cons_of_mem c hd)]

theorem ilikeContains_clean (t : List Char)
    (h : ∀ c ∈ t, c ≠ '%' ∧ c ≠ '_' ∧ c ≠ '\\' ∧ c ≠ '*') (s : List Char) :
    ilikeContains t s = specContainsCI t s := by
  unfold ilikeContains
  have hstar : t.map starToPercent = t := by
    have h' : ∀ c ∈ t, starToPercent c = id c := by
      intro c hc
      simp [starToPercent, (h c hc).2.2.2]
    rw [List.map_congr_left h', List.map_id]
  rw [hstar]
  have h1 : parsePattern ('%' :: (t ++ ['%']))
      = PatTok.percent :: parsePattern (t ++ ['%']) := by
    rw [parsePattern_cons, if_neg (by decide : ('%' : Char) ≠ '\\'),
      if_pos rfl]
  rw [List.cons_append, h1,
    parsePattern_clean_append t (fun c hc => ⟨(h c hc).1, (h c hc).2.1,
      (h c hc).2.2.1⟩) ['%']]
  have h2 : parsePattern ['%'] = [PatTok.percent] := rfl
  rw [h2, patMatch_percent_lits]

theorem le_ceil_mul (t l : Nat) (hl : 1 ≤ l) : t ≤ (t + l - 1) / l * l := by
  have h := (Nat.div_lt_iff_lt_mul (by omega : 0 < l)).mp
    (Nat.lt_succ_self ((t + l - 1) / l))
  rw [Nat.succ_mul] at h
  generalize (t + l - 1) / l * l = k at h ⊢
  omega

theorem ceil_pred_mul_lt (t l : Nat) (hl : 1 ≤ l)
    (hne : (t + l - 1) / l ≠ 0) : ((t + l - 1) / l - 1) * l < t := by
  have hcl : (t + l - 1) / l * l ≤ t + l - 1 := Nat.div_mul_le_self _ _
  have ht : 1 ≤ t := by
    by_contra h0
    have ht0 : t = 0 := by omega
    subst ht0
    exact hne (Nat.div_eq_of_lt (by omega))
  rw [Nat.sub_one_mul]
  generalize (t + l - 1) / l * l = k at hcl ⊢
  omega

theorem ceil_zero_imp (t l : Nat) (hl : 1 ≤ l)
    (h0 : (t + l - 1) / l = 0) : t = 0 := by
  by_contra hne
  have h1 : 1 * l ≤ t + l - 1 := by omega
  have h2 := (Nat.le_div_iff_mul_le (by omega : 0 < l)).mpr h1
  omega

/-! ## Claims -/

/-- C1: every Bookmark in the items returned by List has `user_id` equal to
the requesting owner, for every owner, page, pageSize and searchTerm — the
query always carries the `user_id = owner` equality filter, and the search
and range stages only shrink that set. -/
theorem c1_list_returns_only_owner_rows (store : List Bookmark) (userId : Nat)
    (params : PaginationParams) :
    ∀ b ∈ (getBookmarks store userId params).data, b.user_id = userId := by
  intro b hb
  simp only [getBookmarks] at hb
  have h2 := List.mem_of_mem_drop (List.mem_of_mem_take hb)
  have h3 := (List.mem_filter.mp h2).2
  simp only [rowMatches, buildBookmarksQuery, Bool.and_eq_true,
    beq_iff_eq] at h3
  exact h3.1

/-- Witness for C1 at a concrete store and call. -/
theorem c1_list_returns_only_owner_rows_witness :
    bkA ∈ (getBookmarks [bkA, bkB, bkC] 7
        { page := 1, limit := 10, search := [] }).data ∧
      bkA.user_id = 7 :=
  ⟨by decide,
    c1_list_returns_only_owner_rows [bkA, bkB, bkC] 7
      { page := 1, limit := 10, search := [] } bkA (by decide)⟩

/-- C2: under valid paging (page ≥ 1, pageSize ≥ 1), List returns the slice
of the matching rows (owner and search filters, ordered by `created_at`
descending) starting at offset `(page-1)*pageSize`, of length at most
`pageSize`; `total` is the pre-pagination count of matching rows;
`totalPages` is `ceil(total / pageSize)` (characterized by
`total ≤ totalPages * pageSize` and `(totalPages-1) * pageSize < total`);
and `totalPages = 0` forces an empty items list. -/
theorem c2_pagination_contract (store : List Bookmark) (userId : Nat)
    (params : PaginationParams) (hp : 1 ≤ params.page)
    (hl : 1 ≤ params.limit) :
    (getBookmarks store userId params).data =
      (((sortByCreatedDesc store).filter
          (rowMatches (buildBookmarksQuery userId params))).drop
        (((params.page - 1) * params.limit).toNat)).take
        params.limit.toNat ∧
    (getBookmarks store userId params).data.length ≤ params.limit.toNat ∧
    (getBookmarks store userId params).total =
      ((sortByCreatedDesc store).filter
        (rowMatches (buildBookmarksQuery userId params))).length ∧
    (getBookmarks store userId params).total ≤
      (getBookmarks store userId params).totalPages * params.limit.toNat ∧
    ((getBookmarks store userId params).totalPages ≠ 0 →
      ((getBookmarks store userId params).totalPages - 1) *
        params.limit.toNat < (getBookmarks store userId params).total) ∧
    ((getBookmarks store userId params).totalPages = 0 →
      (getBookmarks store userId params).data = []) := by
  have hl1 : 1 ≤ params.limit.toNat := by omega
  refine ⟨rfl, List.length_take_le _ _, rfl, le_ceil_mul _ _ hl1,
    fun h => ceil_pred_mul_lt _ _ hl1 h, fun h0 => ?_⟩
  have ht := ceil_zero_imp _ _ hl1 h0
  rw [List.length_eq_zero] at ht
  simp only [getBookmarks, ht, List.drop_nil, List.take_nil]

/-- Witness for C2 at a concrete store and call. -/
theorem c2_pagination_contract_witness :
    (getBookmarks [bkA, bkB, bkC] 7
        { page := 1, limit := 2, search := [] }).data.length
      ≤ (2 : Int).toNat :=
  (c2_pagination_contract [bkA, bkB, bkC] 7
    { page := 1, limit := 2, search := [] } (by decide) (by decide)).2.1

/-- C3: an Update whose id/owner pair matches no stored row (nonexistent id,
or a row owned by someone else) is surfaced as an error by `.single()`, never
as success, and the table is unchanged by the attempt. -/
theorem c3_update_wrong_owner_fails_unchanged (store : List Bookmark)
    (bookmarkId userId : Nat) (body : UpdateBody) (now : Int)
    (h : ∀ b ∈ store, ¬(b.id = bookmarkId ∧ b.user_id = userId)) :
    (updateBookmark store bookmarkId userId body now).1 = .error () ∧
    (updateBookmark store bookmarkId userId body now).2 = store := by
  have hfalse : ∀ b ∈ store, updateTargets bookmarkId userId b = false := by
    intro b hb
    rw [Bool.eq_false_iff]
    intro hx
    rw [updateTargets, Bool.and_eq_true, beq_iff_eq, beq_iff_eq] at hx
    exact h b hb hx
  have hfilter : store.filter (updateTargets bookmarkId userId) = [] := by
    rw [List.filter_eq_nil_iff]
    intro b hb
    simp [hfalse b hb]
  have hmap : (store.map fun b => if updateTargets bookmarkId userId b
      then applyUpdateFields body now b else b) = store := by
    have h' : ∀ b ∈ store, (if updateTargets bookmarkId userId b
        then applyUpdateFields body now b else b) = id b := by
      intro b hb
      simp [hfalse b hb]
    rw [List.map_congr_left h', List.map_id]
  constructor
  · simp [updateBookmark, hfilter]
  · simpa [updateBookmark, hfilter] using hmap

/-- Witness for C3: updating id 2 as user 7 when the store only holds a row
with id 1 errors out. -/
theorem c3_update_wrong_owner_fails_unchanged_witness :
    (updateBookmark [bkA] 2 7 {} 0).1 = .error () :=
  (c3_update_wrong_owner_fails_unchanged [bkA] 2 7 {} 0 (by decide)).1

/-- C6 counterexample: with searchTerm "_" the interpolated ILIKE pattern
`%_%` treats the underscore as a one-character wildcard, so List returns the
Alpha row although "_" is not a case-insensitive substring of its title or
url. -/
theorem c6_counterexample_underscore_wildcard :
    (getBookmarks [bkA] 7 { page := 1, limit := 10, search := ['_'] }).data
        = [bkA] ∧
      specContainsCI ['_'] bkA.title = false ∧
      specContainsCI ['_'] bkA.url = false := by
  decide

/-- C6 amended: the search term is interpolated verbatim into
`title.ilike.%term%,url.ilike.%term%`, so `%`, `_` and `\` act as ILIKE
wildcards/escape, PostgREST additionally aliases `*` to `%` in ilike
values, and the delimiter characters `,`, `(`, `)` malform the
logic tree of the `or` filter itself (the real call errors).  For a
non-empty term containing none of these seven characters, the filtered
rows are exactly the rows of the owner whose title or url contains the
term as a case-insensitive substring. -/
theorem c6_amended_search_filter_for_plain_terms (store : List Bookmark)
    (userId : Nat) (params : PaginationParams) (b : Bookmark)
    (hne : params.search ≠ [])
    (hclean : ∀ c ∈ params.search, c ≠ '%' ∧ c ≠ '_' ∧ c ≠ '\\' ∧
      c ≠ '*' ∧ c ≠ ',' ∧ c ≠ '(' ∧ c ≠ ')') :
    b ∈ (sortByCreatedDesc store).filter
        (rowMatches (buildBookmarksQuery userId params)) ↔
      b ∈ store ∧ b.user_id = userId ∧
        (specContainsCI params.search b.title = true ∨
          specContainsCI params.search b.url = true) := by
  rw [List.mem_filter, mem_sortByCreatedDesc]
  simp only [rowMatches, buildBookmarksQuery]
  rw [if_neg (by simpa [List.isEmpty_iff] using hne)]
  simp only [ilikeContains_clean params.search
    (fun c hc => ⟨(hclean c hc).1, (hclean c hc).2.1, (hclean c hc).2.2.1,
      (hclean c hc).2.2.2.1⟩),
    Bool.and_eq_true, Bool.or_eq_true, beq_iff_eq]

/-- Witness for the amended C6: term "alp" selects the Alpha row. -/
theorem c6_amended_search_filter_for_plain_terms_witness :
    bkA ∈ (sortByCreatedDesc [bkA, bkB]).filter
      (rowMatches (buildBookmarksQuery 7
        { page := 1, limit := 10, search := ('a' :: 'l' :: 'p' :: []) })) :=
  (c6_amended_search_filter_for_plain_terms [bkA, bkB] 7
    { page := 1, limit := 10, search := ('a' :: 'l' :: 'p' :: []) } bkA
    (by decide) (by decide)).mpr (by decide)

/-- C7 counterexample: Create performs no scheme validation — a non-empty
url without an http(s) scheme is accepted and persisted (the repo shipped
`isValidUrl` helper and the client form regex are not consulted on this
path). -/
theorem c7_counterexample_ftp_url_accepted :
    createBookmark [] 7
        { url := ('f' :: 't' :: 'p' :: ':' :: '/' :: '/' :: 'x' :: []),
          title := ('t' :: []) } 1 0 =
      Except.ok
        ({ id := 1, user_id := 7,
           url := ('f' :: 't' :: 'p' :: ':' :: '/' :: '/' :: 'x' :: []),
           title := ('t' :: []), created_at := 0, updated_at := 0 },
         [{ id := 1, user_id := 7,
            url := ('f' :: 't' :: 'p' :: ':' :: '/' :: '/' :: 'x' :: []),
            title := ('t' :: []), created_at := 0, updated_at := 0 }]) ∧
      specHasHttpScheme ('f' :: 't' :: 'p' :: ':' :: '/' :: '/' :: 'x' :: [])
        = false :=
  ⟨rfl, by decide⟩

/-- C7 amended: Create fails with InvalidInput exactly when url or title is
empty; no url-scheme validation happens at this layer; on success the
persisted record (with the generated id and both timestamps set to now) is
returned and appended to the store. -/
theorem c7_amended_create_requires_nonempty_only (store : List Bookmark)
    (userId : Nat) (input : BookmarkInput) (newId : Nat) (now : Int) :
    (createBookmark store userId input newId now = Except.error ()
      ↔ (input.url = [] ∨ input.title = [])) ∧
    (input.url ≠ [] → input.title ≠ [] →
      createBookmark store userId input newId now =
        Except.ok
          ({ id := newId, user_id := userId, url := input.url,
             title := input.title, created_at := now, updated_at := now },
           store ++
             [{ id := newId, user_id := userId, url := input.url,
                title := input.title, created_at := now,
                updated_at := now }])) := by
  constructor
  · by_cases hu : input.url = []
    · simp [createBookmark, hu]
    · by_cases ht : input.title = []
      · simp [createBookmark, List.isEmpty_iff, hu, ht]
      · simp [createBookmark, List.isEmpty_iff, hu, ht]
  · intro hu ht
    simp [createBookmark, List.isEmpty_iff, hu, ht]

/-- Witness for the amended C7: a valid input is persisted with the
generated id. -/
theorem c7_amended_create_requires_nonempty_only_witness :
    createBookmark [] 7
        { url := ('h' :: 't' :: 't' :: 'p' :: []),
          title := ('t' :: []) } 1 0 =
      Except.ok
        ({ id := 1, user_id := 7, url := ('h' :: 't' :: 't' :: 'p' :: []),
           title := ('t' :: []), created_at := 0, updated_at := 0 },
         [{ id := 1, user_id := 7, url := ('h' :: 't' :: 't' :: 'p' :: []),
            title := ('t' :: []), created_at := 0, updated_at := 0 }]) :=
  (c7_amended_create_requires_nonempty_only [] 7
    { url := ('h' :: 't' :: 't' :: 'p' :: []), title := ('t' :: []) } 1 0).2
    (by decide) (by decide)

/-- C8: Delete reports success whether or not a row was affected, and a
second Delete of the same id/owner yields the same store and the same
success response; deleting a nonexistent or unowned row leaves the store
untouched. -/
theorem c8_delete_idempotent (store : List Bookmark)
    (bookmarkId userId : Nat) :
    (deleteBookmark store bookmarkId userId).2 = true ∧
    (deleteBookmark (deleteBookmark store bookmarkId userId).1
      bookmarkId userId).2 = true ∧
    (deleteBookmark (deleteBookmark store bookmarkId userId).1
      bookmarkId userId).1 = (deleteBookmark store bookmarkId userId).1 ∧
    ((∀ b ∈ store, ¬(b.id = bookmarkId ∧ b.user_id = userId)) →
      (deleteBookmark store bookmarkId userId).1 = store) := by
  refine ⟨rfl, rfl, ?_, ?_⟩
  · simp only [deleteBookmark, List.filter_filter, Bool.and_self]
  · intro h
    simp only [deleteBookmark]
    rw [List.filter_eq_self]
    intro b hb
    have := h b hb
    simp only [Bool.not_eq_true', Bool.and_eq_false_iff,
      beq_eq_false_iff_ne, ne_eq]
    tauto

/-- Witness for C8: deleting an id absent from the store succeeds and leaves
the store unchanged. -/
theorem c8_delete_idempotent_witness :
    (deleteBookmark [bkA] 2 7).1 = [bkA] :=
  (c8_delete_idempotent [bkA] 2 7).2.2.2 (by decide)

/-- C4 (code bug): PATCH forwards the raw, unvalidated JSON body into
`updateBookmark`, which spreads it into the UPDATE
(`{ ...input, updated_at }`); the `Partial<BookmarkInput>` type is erased at
runtime, so a body carrying a `created_at` key overwrites the supposedly
immutable `created_at` column of the targeted row. -/
theorem c4_update_can_overwrite_created_at :
    (updateBookmark [bkA] 1 7 { created_at := some 999 } 50).1 =
      Except.ok { id := 1, user_id := 7, url := bkA.url, title := bkA.title,
                  created_at := 999, updated_at := 50 } ∧
    (updateBookmark [bkA] 1 7 { created_at := some 999 } 50).2 =
      [{ id := 1, user_id := 7, url := bkA.url, title := bkA.title,
         created_at := 999, updated_at := 50 }] ∧
    bkA.created_at ≠ 999 :=
  ⟨rfl, rfl, by decide⟩

/-- C5 counterexample: a List call with page = 0 is neither clamped nor
rejected — the service builds (and submits) a range whose start is the
negative offset (0 - 1) * 10 = -10. -/
theorem c5_counterexample_page_zero_negative_offset :
    (buildBookmarksQuery 7 { page := 0, limit := 10, search := [] }).rangeStart
        = -10 ∧
      ¬ (0 : Int) ≤ (buildBookmarksQuery 7
        { page := 0, limit := 10, search := [] }).rangeStart := by
  decide

/-- C5 amended: the List path performs no validation or clamping — the
range start of the query is always `(page - 1) * limit` verbatim; the repository
does ship a `validatePagination` helper accepting exactly
`page ≥ 1 ∧ 1 ≤ limit ≤ 100`, and under that (uncalled) check the derived
offset is non-negative. -/
theorem c5_amended_no_validation_on_list_path (userId : Nat)
    (params : PaginationParams)
    (h : validatePagination params.page params.limit = true) :
    (buildBookmarksQuery userId params).rangeStart =
      (params.page - 1) * params.limit ∧
    0 ≤ (buildBookmarksQuery userId params).rangeStart := by
  simp only [validatePagination, Bool.and_eq_true, decide_eq_true_eq] at h
  refine ⟨rfl, ?_⟩
  show 0 ≤ (params.page - 1) * params.limit
  exact mul_nonneg (by omega) (by omega)

/-- Witness for the amended C5 at page 1, limit 10. -/
theorem c5_amended_no_validation_on_list_path_witness :
    0 ≤ (buildBookmarksQuery 7
      { page := 1, limit := 10, search := [] }).rangeStart :=
  (c5_amended_no_validation_on_list_path 7
    { page := 1, limit := 10, search := [] } (by decide)).2

/-- C9 counterexample: `handlePageChange` stores the requested page without
clamping — requesting page 0 while totalPages = 1 drives the page state
below 1 instead of being a no-op. -/
theorem c9_counterexample_page_not_clamped :
    (handlePageChange 0 { page := 1, totalPages := 1 }).page = 0 ∧
      ¬ (1 : Int) ≤ (handlePageChange 0
        { page := 1, totalPages := 1 }).page := by
  decide

/-- C9 amended: the controller itself does not clamp, but the Pagination
component only issues `currentPage ± 1` with the buttons disabled at the
bounds, so every page request reachable through the Pagination UI from an
in-range state stays in `[1, totalPages]`. -/
theorem c9_amended_pagination_buttons_stay_in_range (s : HookState)
    (h1 : 1 ≤ s.page) (h2 : s.page ≤ s.totalPages) :
    (paginationPrevEnabled s.page = true →
      1 ≤ (handlePageChange (s.page - 1) s).page ∧
        (handlePageChange (s.page - 1) s).page ≤ s.totalPages) ∧
    (paginationNextEnabled s.page s.totalPages = true →
      1 ≤ (handlePageChange (s.page + 1) s).page ∧
        (handlePageChange (s.page + 1) s).page ≤ s.totalPages) := by
  simp only [paginationPrevEnabled, paginationNextEnabled, handlePageChange,
    bne_iff_ne, ne_eq]
  constructor
  · intro h
    constructor <;> omega
  · intro h
    constructor <;> omega

/-- Witness for the amended C9: from page 2 of 3, the Previous click lands
in range. -/
theorem c9_amended_pagination_buttons_stay_in_range_witness :
    1 ≤ (handlePageChange (2 - 1) { page := 2, totalPages := 3 }).page ∧
      (handlePageChange (2 - 1) { page := 2, totalPages := 3 }).page ≤ 3 :=
  (c9_amended_pagination_buttons_stay_in_range
    { page := 2, totalPages := 3 } (by decide) (by decide)).1 (by decide)

/-- C10: GetOne returns `null` whenever the underlying query errors — on a
store failure just as on a missing or unowned row — so the caller cannot
tell the cases apart and no StoreUnavailable failure is ever raised. -/
theorem c10_getone_none_on_any_error (store : List Bookmark)
    (bookmarkId userId : Nat) (storeFails : Bool) :
    getBookmark store bookmarkId userId true = none ∧
    ((∀ b ∈ store, ¬(b.id = bookmarkId ∧ b.user_id = userId)) →
      getBookmark store bookmarkId userId storeFails = none) := by
  constructor
  · rfl
  · intro h
    have hfilter : store.filter
        (fun b => b.id == bookmarkId && b.user_id == userId) = [] := by
      rw [List.filter_eq_nil_iff]
      intro b hb
      have := h b hb
      simp only [Bool.and_eq_true, beq_iff_eq]
      tauto
    cases storeFails with
    | true => rfl
    | false => simp [getBookmark, hfilter]

/-- Witness for C10: a missing row yields `none` even without a store
failure. -/
theorem c10_getone_none_on_any_error_witness :
    getBookmark [bkA] 2 7 false = none :=
  (c10_getone_none_on_any_error [bkA] 2 7 false).2 (by decide)

end SmartBookmark
